import Mathlib

/-!
Verification of the `tcell_ebiten` adapter (github.com/ezrec/tcell_ebiten).

This file gives a shallow embedding, in Lean, of the pure state-transformation
core of the repository: the cell grid and its content accessors
(`etcell.go` / `etcell_screen.go`), the bounded event queue and its posting
filters, the `Show` color-resolution pass, the font-face glyph cache and
style-fallback selector (`font/face.go`), the layout negotiation, the
key-repeat timing predicate, and the per-tick input-translation step
(`ETCellGame.Update`).  Go machine integers are modelled as `Int` (Go `int`
is 64-bit; no arithmetic here approaches overflow), Go floats as `Rat`,
Go slices as `List`, Go maps as association lists, and heap references
(`*ebiten.Image`) as allocation identifiers drawn from a counter.
A Go operation that can panic (out-of-range slice index, send on a closed
channel) is modelled with `Option`: `none` is the panic.
-/

namespace TcellEbiten

/-- tcell colors, as used by this repository: either the `ColorDefault`
sentinel or a concrete RGB color.  `TrueColor().RGB()` on a valid color
yields its channels; on `ColorDefault` it yields `(-1, -1, -1)`. -/
inductive TColor where
  | default
  | rgb (r g b : Int)
deriving DecidableEq, Repr

/-- `tcell.ColorWhite` as a true-color value. -/
def colorWhite : TColor := .rgb 255 255 255

/-- `tcell.ColorBlack` as a true-color value. -/
def colorBlack : TColor := .rgb 0 0 0

/-- `c.TrueColor().RGB()`: channel extraction. -/
def TColor.rgbOf : TColor → Int × Int × Int
  | .default => (-1, -1, -1)
  | .rgb r g b => (r, g, b)

/-- The tcell attribute bitmask, one field per attribute bit used by the
repository. -/
structure AttrMask where
  bold : Bool := false
  blink : Bool := false
  reverse : Bool := false
  underline : Bool := false
  dim : Bool := false
  italic : Bool := false
  strikethrough : Bool := false
  invalid : Bool := false
deriving DecidableEq, Repr

/-- `tcell.AttrNone`. -/
def attrNone : AttrMask := {}

/-- A tcell style: foreground, background, attributes.  `Decompose` is the
projection onto the three fields. -/
structure Style where
  fg : TColor := .default
  bg : TColor := .default
  attr : AttrMask := {}
deriving DecidableEq, Repr

/-- `tcell.StyleDefault`: the zero style (default colors, no attributes). -/
def styleDefault : Style := {}

/-- The color actually handed to ebiten: `e_color_of` converts via
`TrueColor().RGB()` and `uint8` casts (mod 256) with alpha 255. -/
structure RGBA where
  r : Int
  g : Int
  b : Int
  a : Int
deriving DecidableEq, Repr

/-- `e_color_of(c)`: RGBA from a tcell color (`uint8` casts are mod 256,
alpha is 255). -/
def eColorOf (c : TColor) : RGBA :=
  let rgb := c.rgbOf
  ⟨rgb.1 % 256, rgb.2.1 % 256, rgb.2.2 % 256, 255⟩

/-- One grid cell (`type cell struct` in `etcell_screen.go`): rune,
combining runes, style, the `synced` flag, and the colors resolved by the
last `Show` pass.  Runes are modelled as `Nat` code points. -/
structure Cell where
  style : Style := styleDefault
  rune : Nat := 0
  combining : List Nat := []
  synced : Bool := false
  fgColor : RGBA := ⟨0, 0, 0, 0⟩
  bgColor : RGBA := ⟨0, 0, 0, 0⟩
deriving DecidableEq, Repr

/-- The grid portion of the screen state: dimensions in cells and the flat
row-major cell slice (`index = y*grid_size.X + x`). -/
structure GridState where
  sizeX : Int
  sizeY : Int
  grid : List Cell
deriving DecidableEq, Repr

/-- `SetContent(x, y, primary, combining, style)` from `etcell.go` /
`etcell_screen.go`.  The source checks only `x >= grid_size.X` and
`y >= grid_size.Y` (no lower-bound checks) and then writes
`grid[y*grid_size.X+x]`.  A Go slice write with a negative or
too-large index panics: that is the `none` result. -/
def setContent (x y : Int) (primary : Nat) (combining : List Nat)
    (style : Style) (s : GridState) : Option GridState :=
  if x ≥ s.sizeX then some s
  else if y ≥ s.sizeY then some s
  else
    let n : Int := y * s.sizeX + x
    if 0 ≤ n ∧ n < (s.grid.length : Int) then
      let c : Cell := { rune := primary, combining := combining, style := style }
      some { s with grid := s.grid.set n.toNat c }
    else none

/-- `GetContent(x, y)` from `etcell.go` / `etcell_screen.go`: the same
upper-bound-only guards, then a read of `grid[y*grid_size.X+x]`.
Returns `(primary, combining, style, width)`; `none` is the index panic. -/
def getContent (x y : Int) (s : GridState) :
    Option (Nat × List Nat × Style × Int) :=
  if x ≥ s.sizeX then some (0, [], styleDefault, 0)
  else if y ≥ s.sizeY then some (0, [], styleDefault, 0)
  else
    let n : Int := y * s.sizeX + x
    if h : 0 ≤ n ∧ n < (s.grid.length : Int) then
      let c := s.grid.get ⟨n.toNat, by
        have := h.2
        omega⟩
      some (c.rune, c.combining, c.style, 1)
    else none

/-- A concrete 2×2 grid whose four cells hold the runes 65..68
(`A`..`D`), for exercising the out-of-bounds accessors. -/
def demoGrid : GridState :=
  { sizeX := 2, sizeY := 2,
    grid := [ { rune := 65 }, { rune := 66 }, { rune := 67 }, { rune := 68 } ] }

/-- C1.  The claim states that every out-of-bounds coordinate — including
negative `x` or `y` — leaves the grid unchanged under `SetContent` (no
panic) and reads back as zero values under `GetContent`.  The code checks
only the upper bounds, so negative coordinates reach the row-major index
`y*width+x`: on the 2×2 demo grid, `GetContent(-1, 1)` reads index 1 (the
cell at `(1,0)`, rune 66, not zero values), `SetContent(-1, 1, ...)`
overwrites that cell, and `SetContent(-1, 0, ...)` indexes `-1` and
panics.  This theorem evaluates the code at those failing inputs. -/
theorem c1_oob_negative_coordinates_bug :
    getContent (-1) 1 demoGrid = some (66, [], styleDefault, 1) ∧
    setContent (-1) 1 90 [] styleDefault demoGrid =
      some { demoGrid with grid := [ { rune := 65 }, { rune := 90 },
        { rune := 67 }, { rune := 68 } ] } ∧
    setContent (-1) 0 90 [] styleDefault demoGrid = none := by
  refine ⟨?_, ?_, ?_⟩ <;> decide

/-- Modifier-key mask (`tcell.ModMask`), one field per modifier read by
`modMask()`. -/
structure ModMask where
  shift : Bool := false
  ctrl : Bool := false
  alt : Bool := false
  metaMod : Bool := false
deriving DecidableEq, Repr

/-- tcell events, as the tagged variants this repository constructs or
filters (`switch ev.(type)` in `postEvent`). -/
inductive Event where
  | resize (w h : Int)
  | focus (focused : Bool)
  | mouse (x y : Int) (buttons : Nat) (mods : ModMask)
  | key (k : Int) (ch : Nat) (mods : ModMask)
  | paste (start : Bool)
  | time
deriving DecidableEq, Repr

/-- Outcome of a Go channel send in this single-threaded model:
`delivered` (buffer had room), `dropped` (an early `return` before the
send), or `blocked` (the buffered channel was full, so the Go send
statement blocks its caller — with no concurrent receiver it never
completes). -/
inductive SendResult where
  | delivered
  | dropped
  | blocked
deriving DecidableEq, Repr

/-- An integer rectangle (`image.Rectangle`), min-inclusive /
max-exclusive. -/
structure Rect where
  minX : Int
  minY : Int
  maxX : Int
  maxY : Int
deriving DecidableEq, Repr

/-- An integer point (`image.Point`). -/
structure Point where
  x : Int
  y : Int
deriving DecidableEq, Repr

/-- `p.In(r)` for `image.Point` / `image.Rectangle`. -/
def Point.inRect (p : Point) (r : Rect) : Bool :=
  decide (r.minX ≤ p.x ∧ p.x < r.maxX ∧ r.minY ≤ p.y ∧ p.y < r.maxY)

/-- The event/flag portion of `ETCellScreen` (plus the `ETCellGame`
fields its `Update` reads).  The event channel is `none` when the Go
channel variable is nil (before `Init` and after `Fini`), otherwise the
buffered, undelivered events in order. -/
structure ScreenState where
  event_channel : Option (List Event) := none
  enable_focus : Bool := false
  enable_paste : Bool := false
  mouse_flags : Nat := 0
  focused : Bool := false
  suspended : Bool := false
  close_error : Option Nat := none
  layout : Rect := ⟨0, 0, 0, 0⟩
  cell_size : Point := ⟨0, 0⟩
deriving DecidableEq, Repr

/-- `make(chan tcell.Event, 128)`: the channel capacity. -/
def eventQueueCapacity : Nat := 128

/-- The Go statement `et.event_channel <- ev` on an open buffered
channel: appends when the buffer has room, otherwise blocks the
sender. -/
def sendEvent (s : ScreenState) (q : List Event) (ev : Event) :
    ScreenState × SendResult :=
  if q.length < eventQueueCapacity then
    ({ s with event_channel := some (q ++ [ev]) }, .delivered)
  else (s, .blocked)

/-- `ETCellScreen.postEvent` (`etcell_screen.go`): nil-channel guard,
then the per-type enabled-flag filters (focus, paste, mouse), then the
channel send.  `etcell.PostEvent` in the older `etcell.go` generation is
the same function without the nil-channel guard. -/
def postEvent (s : ScreenState) (ev : Event) : ScreenState × SendResult :=
  match s.event_channel with
  | none => (s, .dropped)
  | some q =>
    match ev with
    | .focus _ => if !s.enable_focus then (s, .dropped) else sendEvent s q ev
    | .paste _ => if !s.enable_paste then (s, .dropped) else sendEvent s q ev
    | .mouse _ _ _ _ => if s.mouse_flags = 0 then (s, .dropped) else sendEvent s q ev
    | _ => sendEvent s q ev

/-- `Init()`: opens the bounded event queue (empty buffer). -/
def initEvents (s : ScreenState) : ScreenState :=
  { s with event_channel := some [] }

/-- `ETCellScreen.Fini()`: closes the event channel and sets the channel
variable to nil; the nil state is what any later `postEvent` observes. -/
def fini (s : ScreenState) : ScreenState :=
  { s with event_channel := none }

/-- `EnableMouse(flags...)`: ORs each given flag into the stored mask
(and nothing else). -/
def enableMouse (flags : List Nat) (s : ScreenState) : ScreenState :=
  { s with mouse_flags := flags.foldl (fun acc f => acc ||| f) s.mouse_flags }

/-- Post a list of events in order, collecting each send's outcome. -/
def postMany (s : ScreenState) (evs : List Event) :
    ScreenState × List SendResult :=
  match evs with
  | [] => (s, [])
  | ev :: rest =>
    let r := postEvent s ev
    let rr := postMany r.1 rest
    (rr.1, r.2 :: rr.2)

/-- A freshly initialized screen: open empty queue, all reporting flags
at their zero values. -/
def freshScreen : ScreenState := initEvents {}

/-- C2.  The claim states that posting into a full 128-slot queue
returns without blocking and silently drops the event.  The code's
`postEvent` ends in a plain buffered-channel send, which blocks once the
buffer holds 128 undelivered events: posting 129 time events with no
intervening polls delivers the first 128 and then blocks the 129th
poster (it does not return).  This theorem evaluates the code on that
failing input. -/
theorem c2_post_129_blocks_not_drops :
    (postMany freshScreen (List.replicate 129 Event.time)).2 =
      List.replicate 128 SendResult.delivered ++ [SendResult.blocked] ∧
    (postMany freshScreen (List.replicate 129 Event.time)).1.event_channel =
      some (List.replicate 128 Event.time) := by
  constructor <;> decide

/-- C3.  After `Fini` (which closes the event channel and nils the
channel variable), any further internal send via `postEvent` is a no-op:
it hits the nil-channel guard, returns normally without panicking, and
leaves the whole screen state unchanged — for every prior state and
every event. -/
theorem c3_post_after_fini_is_noop (s : ScreenState) (ev : Event) :
    postEvent (fini s) ev = (fini s, SendResult.dropped) := rfl

/-- C10.  `EnableMouse` with an empty flag list leaves the stored
mouse-flag state unchanged for every screen state; in particular, on a
freshly initialized screen (mouse flags never set), a mouse event posted
after `EnableMouse()` with no arguments is still dropped by the
`mouse_flags == 0` filter rather than delivered. -/
theorem c10_enable_mouse_no_flags_is_noop :
    (∀ s : ScreenState, enableMouse [] s = s) ∧
    postEvent (enableMouse [] freshScreen) (Event.mouse 0 0 0 {}) =
      (freshScreen, SendResult.dropped) := by
  refine ⟨fun s => rfl, ?_⟩
  decide

/-- Go integer division (`/` on `int`) truncates toward zero. -/
def goDiv (a b : Int) : Int := Int.tdiv a b

/-- The bold branch of `Show`: each foreground channel is doubled and
clamped to 255 (`min(255, int32(float32(r)*2))`; exact for channel
values, which are at most 255). -/
def boldColor (c : TColor) : TColor :=
  let rgb := c.rgbOf
  .rgb (min 255 (2 * rgb.1)) (min 255 (2 * rgb.2.1)) (min 255 (2 * rgb.2.2))

/-- The dim branch of `Show`: each foreground channel is halved
(`min(255, int32(float32(r)/2))`; the `int32` cast truncates toward
zero). -/
def dimColor (c : TColor) : TColor :=
  let rgb := c.rgbOf
  .rgb (min 255 (goDiv rgb.1 2)) (min 255 (goDiv rgb.2.1 2))
    (min 255 (goDiv rgb.2.2 2))

/-- The color-resolution block of `ETCellScreen.Show` (same block in
`etcell.Show`), in the source's statement order: resolve the effective
style (screen default when the cell style is the `StyleDefault`
sentinel), decompose, zero the attributes when `AttrInvalid` is set,
substitute the default colors (default fg → white, default bg → black),
then reverse, then bold, then dim, and convert both via `e_color_of`. -/
def resolveShowColors (style_default : Style) (cellStyle : Style) :
    RGBA × RGBA :=
  let style := if cellStyle = styleDefault then style_default else cellStyle
  let fg := style.fg
  let bg := style.bg
  let attr := style.attr
  let attr := if attr.invalid then attrNone else attr
  let fg := if fg = TColor.default then colorWhite else fg
  let bg := if bg = TColor.default then colorBlack else bg
  let fgbg := if attr.reverse then (bg, fg) else (fg, bg)
  let fg := fgbg.1
  let bg := fgbg.2
  let fg := if attr.bold then boldColor fg else fg
  let fg := if attr.dim then dimColor fg else fg
  (eColorOf fg, eColorOf bg)

/-- The per-cell effect of a `Show` pass on the fields the spec speaks
about: a synced cell is skipped; an unsynced cell gets its resolved
colors stored and its `synced` flag set.  (The glyph and position
resolution of the same loop body is modelled with the font-face
functions below.) -/
def showCell (style_default : Style) (c : Cell) : Cell :=
  if c.synced then c
  else
    let colors := resolveShowColors style_default c.style
    { c with fgColor := colors.1, bgColor := colors.2, synced := true }

/-- The pipeline **in the order the claim states it** (this definition
follows the claim's words, not the source): resolve the effective style,
then reverse, then bold, then dim, and default-color substitution
last. -/
def resolveShowColorsClaimOrder (style_default : Style) (cellStyle : Style) :
    RGBA × RGBA :=
  let style := if cellStyle = styleDefault then style_default else cellStyle
  let fg := style.fg
  let bg := style.bg
  let attr := style.attr
  let fgbg := if attr.reverse then (bg, fg) else (fg, bg)
  let fg := fgbg.1
  let bg := fgbg.2
  let fg := if attr.bold then boldColor fg else fg
  let fg := if attr.dim then dimColor fg else fg
  let fg := if fg = TColor.default then colorWhite else fg
  let bg := if bg = TColor.default then colorBlack else bg
  (eColorOf fg, eColorOf bg)

/-- Default-color substitution step: default fg becomes white, default
bg becomes black. -/
def substituteDefaults (fg bg : TColor) : TColor × TColor :=
  (if fg = TColor.default then colorWhite else fg,
   if bg = TColor.default then colorBlack else bg)

/-- Reverse step: swap fg and bg when the reverse attribute is set. -/
def applyReverse (attr : AttrMask) (fg bg : TColor) : TColor × TColor :=
  if attr.reverse then (bg, fg) else (fg, bg)

/-- Bold step: intensify fg when the bold attribute is set. -/
def applyBold (attr : AttrMask) (fg : TColor) : TColor :=
  if attr.bold then boldColor fg else fg

/-- Dim step: de-intensify fg when the dim attribute is set. -/
def applyDim (attr : AttrMask) (fg : TColor) : TColor :=
  if attr.dim then dimColor fg else fg

/-- The amended pipeline, in the order the code actually applies it:
effective-style resolution, attribute zeroing on `AttrInvalid`,
default-color substitution **first**, then reverse, then bold, then
dim. -/
def resolveShowColorsAmended (style_default : Style) (cellStyle : Style) :
    RGBA × RGBA :=
  let style := if cellStyle = styleDefault then style_default else cellStyle
  let attr := if style.attr.invalid then attrNone else style.attr
  let sub := substituteDefaults style.fg style.bg
  let rev := applyReverse attr sub.1 sub.2
  let fg := applyDim attr (applyBold attr rev.1)
  (eColorOf fg, eColorOf rev.2)

/-- The screen default style installed by the constructor:
white foreground on black background. -/
def styleWhiteOnBlack : Style := { fg := colorWhite, bg := colorBlack }

/-- A cell whose style is default colors with the reverse attribute, not
yet synced. -/
def c4Cell : Cell :=
  { style := { fg := .default, bg := .default, attr := { reverse := true } } }

/-- C4 counterexample.  On a not-yet-synced cell whose style has default
fg/bg and the reverse attribute, the code substitutes first
(fg → white, bg → black) and then swaps, producing a black foreground
(0,0,0,255); the claim's order (reverse first, substitution last) swaps
two defaults and then substitutes, producing a white foreground
(255,255,255,255).  So the claim, as stated, fails at this input. -/
theorem c4_counterexample :
    c4Cell.synced = false ∧
    (showCell styleWhiteOnBlack c4Cell).fgColor ≠
      (resolveShowColorsClaimOrder styleWhiteOnBlack c4Cell.style).1 := by
  constructor <;> decide

/-- C4 amended.  For every cell with synced=false, a `Show` pass stores
the colors obtained by: resolving the effective style, ignoring all
attributes when `AttrInvalid` is set, substituting default colors
**first** (default fg → white, default bg → black), then applying
reverse, then bold, then dim — and marks the cell synced=true. -/
theorem c4_show_substitutes_defaults_before_attributes
    (sd : Style) (c : Cell) (h : c.synced = false) :
    showCell sd c =
      { c with fgColor := (resolveShowColorsAmended sd c.style).1,
               bgColor := (resolveShowColorsAmended sd c.style).2,
               synced := true } := by
  unfold showCell resolveShowColors resolveShowColorsAmended
    substituteDefaults applyReverse applyBold applyDim
  rw [h]
  rfl

/-- C4 witness: the amended theorem applied to the concrete reverse-video
cell. -/
theorem c4_witness :
    showCell styleWhiteOnBlack c4Cell =
      { c4Cell with
          fgColor := (resolveShowColorsAmended styleWhiteOnBlack c4Cell.style).1,
          bgColor := (resolveShowColorsAmended styleWhiteOnBlack c4Cell.style).2,
          synced := true } :=
  c4_show_substitutes_defaults_before_attributes styleWhiteOnBlack c4Cell rfl

/-- Font styles (`font.FontStyle`). -/
inductive FontStyle where
  | normal
  | bold
  | italic
  | boldItalic
deriving DecidableEq, Repr

/-- `FaceWithStyle.forStyle` (`font/face.go`), with the style map as a
partial map to face identifiers.  A `none` result is the Go panic
("FaceWithStyle.StyleMap[FontStyleNormal] does not exist"), reached only
when the whole fallback chain misses. -/
def forStyle (m : FontStyle → Option Nat) : FontStyle → Option Nat
  | .normal => m .normal
  | .italic =>
    match m .italic with
    | some f => some f
    | none => m .normal
  | .boldItalic =>
    match m .boldItalic with
    | some f => some f
    | none =>
      match m .italic with
      | some f => some f
      | none =>
        match m .bold with
        | some f => some f
        | none => m .normal
  | .bold =>
    match m .bold with
    | some f => some f
    | none => m .normal

/-- The fallback order the spec states, as an explicit search list per
requested style. -/
def fallbackChain : FontStyle → List FontStyle
  | .normal => [.normal]
  | .italic => [.italic, .normal]
  | .bold => [.bold, .normal]
  | .boldItalic => [.boldItalic, .italic, .bold, .normal]

/-- A style map with only Normal (face 0) and Bold (face 1) registered. -/
def normalBoldMap : FontStyle → Option Nat
  | .normal => some 0
  | .bold => some 1
  | _ => none

/-- C5.  The style selector resolves a request by the fixed fallback
order BoldItalic → Italic → Bold → Normal (Italic and Bold each fall
back to Normal): `forStyle` returns the first hit of the spec's fallback
chain for every map and style.  With only {Normal, Bold} registered,
Italic yields Normal's face and BoldItalic yields Bold's face; and when
no Normal entry exists, resolving a style whose chain exhausts (in
particular Normal itself) is the fatal panic (`none`). -/
theorem c5_style_fallback_order :
    (∀ (m : FontStyle → Option Nat) (s : FontStyle),
      forStyle m s = (fallbackChain s).findSome? m) ∧
    forStyle normalBoldMap .italic = some 0 ∧
    forStyle normalBoldMap .boldItalic = some 1 ∧
    (∀ m : FontStyle → Option Nat,
      m .normal = none → forStyle m .normal = none) := by
  refine ⟨fun m s => ?_, rfl, rfl, fun m h => ?_⟩
  · cases s with
    | normal =>
      cases h : m .normal <;> simp [forStyle, fallbackChain, List.findSome?, h]
    | italic =>
      cases h1 : m .italic <;> cases h2 : m .normal <;>
        simp [forStyle, fallbackChain, List.findSome?, h1, h2]
    | bold =>
      cases h1 : m .bold <;> cases h2 : m .normal <;>
        simp [forStyle, fallbackChain, List.findSome?, h1, h2]
    | boldItalic =>
      cases h1 : m .boldItalic <;> cases h2 : m .italic <;>
        cases h3 : m .bold <;> cases h4 : m .normal <;>
        simp [forStyle, fallbackChain, List.findSome?, h1, h2, h3, h4]
  · simp [forStyle, h]

/-- C5 witness: the no-Normal conjunct applied to the empty style map. -/
theorem c5_witness : forStyle (fun _ => none) .normal = none :=
  c5_style_fallback_order.2.2.2 (fun _ => none) rfl

/-- `etcell.Layout` (`etcell.go`): grid dimensions by Go integer
division of the offered pixel size by the cell size, returned size =
grid dimensions × cell size.  (The grid reallocation and resize event on
a size change are side effects not modelled here.) -/
def layoutSize (cell_size : Point) (outsideWidth outsideHeight : Int) :
    Int × Int :=
  let gridX := goDiv outsideWidth cell_size.x
  let gridY := goDiv outsideHeight cell_size.y
  (gridX * cell_size.x, gridY * cell_size.y)

/-- C6.  For every offered nonnegative pixel size and positive cell
size, layout negotiation returns exactly the whole-cell floor-division
size `(⌊w/cw⌋*cw, ⌊h/ch⌋*ch)` (Int `/` is floor division for these
signs), which is at most the offered size in each dimension; an exact
multiple is returned unchanged, and one extra pixel (when a cell is
wider than a pixel) rounds down to the same multiple, never up. -/
theorem c6_layout_floor_division (cw ch w h : Int)
    (hcw : 0 < cw) (hch : 0 < ch) (hw : 0 ≤ w) (hh : 0 ≤ h) :
    layoutSize ⟨cw, ch⟩ w h = (w / cw * cw, h / ch * ch) ∧
    (layoutSize ⟨cw, ch⟩ w h).1 ≤ w ∧
    (layoutSize ⟨cw, ch⟩ w h).2 ≤ h ∧
    (∀ k l : Int, 0 ≤ k → 0 ≤ l →
      layoutSize ⟨cw, ch⟩ (k * cw) (l * ch) = (k * cw, l * ch) ∧
      (1 < cw → 1 < ch →
        layoutSize ⟨cw, ch⟩ (k * cw + 1) (l * ch + 1) = (k * cw, l * ch))) := by
  have hcw0 : (0 : Int) ≤ cw := le_of_lt hcw
  have hch0 : (0 : Int) ≤ ch := le_of_lt hch
  have hmain : layoutSize ⟨cw, ch⟩ w h = (w / cw * cw, h / ch * ch) := by
    unfold layoutSize goDiv
    rw [Int.tdiv_eq_ediv hw hcw0, Int.tdiv_eq_ediv hh hch0]
  refine ⟨hmain, ?_, ?_, ?_⟩
  · rw [hmain]
    exact Int.ediv_mul_le w (ne_of_gt hcw)
  · rw [hmain]
    exact Int.ediv_mul_le h (ne_of_gt hch)
  · intro k l hk hl
    constructor
    · unfold layoutSize goDiv
      rw [Int.tdiv_eq_ediv (mul_nonneg hk hcw0) hcw0,
        Int.tdiv_eq_ediv (mul_nonneg hl hch0) hch0,
        Int.mul_ediv_cancel k (ne_of_gt hcw),
        Int.mul_ediv_cancel l (ne_of_gt hch)]
    · intro hcw1 hch1
      unfold layoutSize goDiv
      have hx : (0 : Int) ≤ k * cw + 1 := by positivity
      have hy : (0 : Int) ≤ l * ch + 1 := by positivity
      rw [Int.tdiv_eq_ediv hx hcw0, Int.tdiv_eq_ediv hy hch0,
        add_comm (k * cw) 1, add_comm (l * ch) 1,
        Int.add_mul_ediv_right 1 k (ne_of_gt hcw),
        Int.add_mul_ediv_right 1 l (ne_of_gt hch),
        Int.ediv_eq_zero_of_lt (by norm_num) hcw1,
        Int.ediv_eq_zero_of_lt (by norm_num) hch1]
      simp

/-- C6 witness: an 11×22-pixel cell offered one pixel more than 20×30
cells returns the exact 20×30-cell size (matches the repository's
`TestNewScreen`). -/
theorem c6_witness : layoutSize ⟨11, 22⟩ 221 662 = (220, 660) := by
  have h := c6_layout_floor_division 11 22 221 662 (by decide) (by decide)
    (by decide) (by decide)
  rw [h.1]
  decide

/-- The state of a `CacheFont` (`font/face.go`): the rune → glyph map
(an entry `some none` is a cached nil sentinel, an absent key is a cache
miss), the lazily allocated shared empty glyph, and an allocation
counter standing in for `ebiten.NewImage` heap references — two glyphs
are the identical image exactly when their identifiers are equal. -/
structure CacheFontState where
  cache : List (Nat × Option Nat) := []
  empty : Option Nat := none
  nextId : Nat := 0
deriving DecidableEq, Repr

/-- `CacheFont.Empty()`: return the shared empty image, allocating it on
first use. -/
def cacheFontEmpty (s : CacheFontState) : Nat × CacheFontState :=
  match s.empty with
  | some e => (e, s)
  | none => (s.nextId, { s with empty := some s.nextId, nextId := s.nextId + 1 })

/-- `CacheFont.SetGlyph(r, glyph)`: store the glyph (or nil sentinel)
for the rune.  (The size-check panic is unreachable from `Glyph`, which
only stores images allocated at the font's own cell size, or nil.) -/
def setGlyph (s : CacheFontState) (r : Nat) (glyph : Option Nat) :
    CacheFontState :=
  { s with cache := (r, glyph) :: s.cache }

/-- `CacheFont.Glyph(r, style)` (`font/face.go` 102–123): allocate the
empty image if missing, look the rune up, cache a nil sentinel on a
miss, and answer the empty image with `is_empty = true` whenever the
cached value is nil. -/
def cacheFontGlyph (s : CacheFontState) (r : Nat) (_style : FontStyle) :
    (Nat × Bool) × CacheFontState :=
  let s :=
    match s.empty with
    | some _ => s
    | none => { s with empty := some s.nextId, nextId := s.nextId + 1 }
  let found := s.cache.lookup r
  let gs : Option Nat × CacheFontState :=
    match found with
    | some g => (g, s)
    | none => (none, { s with cache := (r, none) :: s.cache })
  match gs.1 with
  | some g => ((g, false), gs.2)
  | none => ((gs.2.empty.getD 0, true), gs.2)

/-- A `MonoFont`: the embedded `CacheFont` plus the backend predicate
"the underlying text face has a glyph for this rune" (the per-face-type
`UnsafeInternal` queries of `MonoFont.HasGlyph`, abstracted). -/
structure MonoFontState where
  cacheFont : CacheFontState := {}
  backend : Nat → Bool

/-- `MonoFont.HasGlyph(r, style)`: a cached entry short-circuits
(nil entry means no glyph); otherwise ask the backend. -/
def monoHasGlyph (s : MonoFontState) (r : Nat) (_style : FontStyle) : Bool :=
  match s.cacheFont.cache.lookup r with
  | some g => g.isSome
  | none => s.backend r

/-- `MonoFont.Glyph(r, style)` (`font/face.go` 245–266): on a cache
miss, render a fresh glyph when the backend has one (modelled as a fresh
allocation) or store the nil sentinel, via `SetGlyph`; a nil result is
answered with the shared empty image and `is_empty = true`. -/
def monoFontGlyph (s : MonoFontState) (r : Nat) (style : FontStyle) :
    (Nat × Bool) × MonoFontState :=
  match s.cacheFont.cache.lookup r with
  | some glyph =>
    match glyph with
    | some g => ((g, false), s)
    | none =>
      let er := cacheFontEmpty s.cacheFont
      ((er.1, true), { s with cacheFont := er.2 })
  | none =>
    let gcf : Option Nat × CacheFontState :=
      if monoHasGlyph s r style then
        (some s.cacheFont.nextId,
         { s.cacheFont with nextId := s.cacheFont.nextId + 1 })
      else (none, s.cacheFont)
    let cf := setGlyph gcf.2 r gcf.1
    match gcf.1 with
    | some g => ((g, false), { s with cacheFont := cf })
    | none =>
      let er := cacheFontEmpty cf
      ((er.1, true), { s with cacheFont := er.2 })

/-- C7.  Caching is stable: for both `CacheFont.Glyph` and
`MonoFont.Glyph`, a second call with the same rune and style returns the
identical bitmap reference (and the same `is_empty` flag) as the first;
and for a rune that is not cached and that the backend lacks, both calls
return the single shared empty-glyph reference with `is_empty = true`. -/
theorem c7_glyph_cache_stable :
    (∀ (s : CacheFontState) (r : Nat) (st : FontStyle),
      (cacheFontGlyph (cacheFontGlyph s r st).2 r st).1 =
        (cacheFontGlyph s r st).1) ∧
    (∀ (s : MonoFontState) (r : Nat) (st : FontStyle),
      (monoFontGlyph (monoFontGlyph s r st).2 r st).1 =
        (monoFontGlyph s r st).1) ∧
    (∀ (s : CacheFontState) (r : Nat) (st : FontStyle),
      s.cache.lookup r = none →
      (cacheFontGlyph s r st).1.2 = true ∧
      (cacheFontGlyph s r st).2.empty = some (cacheFontGlyph s r st).1.1 ∧
      (cacheFontGlyph (cacheFontGlyph s r st).2 r st).1 =
        (cacheFontGlyph s r st).1) ∧
    (∀ (s : MonoFontState) (r : Nat) (st : FontStyle),
      s.cacheFont.cache.lookup r = none →
      s.backend r = false →
      (monoFontGlyph s r st).1.2 = true ∧
      (monoFontGlyph s r st).2.cacheFont.empty =
        some (monoFontGlyph s r st).1.1 ∧
      (monoFontGlyph (monoFontGlyph s r st).2 r st).1 =
        (monoFontGlyph s r st).1) := by
  refine ⟨fun s r st => ?_, fun s r st => ?_, fun s r st h => ?_, fun s r st h hb => ?_⟩
  · cases he : s.empty with
    | some e =>
      cases hg : s.cache.lookup r with
      | some g => cases g <;> simp [cacheFontGlyph, he, hg]
      | none => simp [cacheFontGlyph, he, hg, List.lookup]
    | none =>
      cases hg : s.cache.lookup r with
      | some g => cases g <;> simp [cacheFontGlyph, he, hg]
      | none => simp [cacheFontGlyph, he, hg, List.lookup]
  · cases hg : s.cacheFont.cache.lookup r with
    | some g =>
      cases g with
      | some gg => simp [monoFontGlyph, hg]
      | none =>
        cases he : s.cacheFont.empty <;>
          simp [monoFontGlyph, hg, cacheFontEmpty, he]
    | none =>
      cases hb : s.backend r with
      | true =>
        simp [monoFontGlyph, monoHasGlyph, hg, hb, setGlyph, List.lookup]
      | false =>
        cases he : s.cacheFont.empty <;>
          simp [monoFontGlyph, monoHasGlyph, hg, hb, setGlyph,
            cacheFontEmpty, he, List.lookup]
  · cases he : s.empty with
    | some e => simp [cacheFontGlyph, he, h, List.lookup]
    | none => simp [cacheFontGlyph, he, h, List.lookup]
  · cases he : s.cacheFont.empty <;>
      simp [monoFontGlyph, monoHasGlyph, h, hb, setGlyph,
        cacheFontEmpty, he, List.lookup]

/-- A `MonoFont` over a backend with no glyphs at all. -/
def emptyBackendFont : MonoFontState := { backend := fun _ => false }

/-- C7 witness: the hypothesis-bearing conjuncts of the cache theorem
applied to rune 5 on an empty `CacheFont` and on a `MonoFont` whose
backend has no glyphs. -/
theorem c7_witness :
    ((cacheFontGlyph ({} : CacheFontState) 5 FontStyle.normal).1.2 = true ∧
      (cacheFontGlyph ({} : CacheFontState) 5 FontStyle.normal).2.empty =
        some (cacheFontGlyph ({} : CacheFontState) 5 FontStyle.normal).1.1 ∧
      (cacheFontGlyph (cacheFontGlyph ({} : CacheFontState) 5
          FontStyle.normal).2 5 FontStyle.normal).1 =
        (cacheFontGlyph ({} : CacheFontState) 5 FontStyle.normal).1) ∧
    ((monoFontGlyph emptyBackendFont 5 FontStyle.normal).1.2 = true ∧
      (monoFontGlyph emptyBackendFont 5 FontStyle.normal).2.cacheFont.empty =
        some (monoFontGlyph emptyBackendFont 5 FontStyle.normal).1.1 ∧
      (monoFontGlyph (monoFontGlyph emptyBackendFont 5
          FontStyle.normal).2 5 FontStyle.normal).1 =
        (monoFontGlyph emptyBackendFont 5 FontStyle.normal).1) :=
  ⟨c7_glyph_cache_stable.2.2.1 {} 5 .normal rfl,
   c7_glyph_cache_stable.2.2.2 emptyBackendFont 5 .normal rfl rfl⟩

/-- `isKeyJustPressedOrRepeating` (`etcell.go` 186–211): key-repeat
timing.  `tps` is `ebiten.ActualTPS()` (a nonnegative float, modelled as
`Rat`); the Go `int(...)` casts truncate toward zero, which for
nonnegative values is the floor.  `d` is
`inpututil.KeyPressDuration(key)` in ticks, and Go `%` is `Int.tmod`. -/
def isKeyJustPressedOrRepeating (tps : Rat) (d : Int) : Bool :=
  let delay0 : Int := ⌊(0.500 : Rat) * tps⌋
  let interval0 : Int := ⌊(0.050 : Rat) * tps⌋
  let di : Int × Int := if interval0 = 0 then (30, 3) else (delay0, interval0)
  if d = 1 then true
  else if d ≥ di.1 then
    decide (Int.tmod (d - di.1) di.2 = 0)
  else false

/-- The claim's formula for the repeat predicate: a repeat fires exactly
when `d = 1`, or `d ≥ delay` with `(d - delay) mod interval = 0`, where
`delay = ⌊0.5·tps⌋` and `interval = ⌊0.05·tps⌋`, except that when the
interval computes to 0 the fallback `delay = 30`, `interval = 3` is
used. -/
def keyRepeatSpec (tps : Rat) (d : Int) : Prop :=
  let delay : Int :=
    if ⌊(0.050 : Rat) * tps⌋ = 0 then 30 else ⌊(0.500 : Rat) * tps⌋
  let interval : Int :=
    if ⌊(0.050 : Rat) * tps⌋ = 0 then 3 else ⌊(0.050 : Rat) * tps⌋
  d = 1 ∨ (d ≥ delay ∧ (d - delay) % interval = 0)

/-- C8.  For every nonnegative frame rate and press duration, the code's
repeat predicate holds exactly as the claim's formula states (`%` here
is the mathematical mod, which agrees with Go's `%` on these
nonnegative operands). -/
theorem c8_key_repeat_timing (tps : Rat) (d : Int) (h : 0 ≤ tps) :
    isKeyJustPressedOrRepeating tps d = true ↔ keyRepeatSpec tps d := by
  have hdelay : (0 : Int) ≤ ⌊(0.500 : Rat) * tps⌋ :=
    Int.floor_nonneg.2 (by positivity)
  have hint : (0 : Int) ≤ ⌊(0.050 : Rat) * tps⌋ :=
    Int.floor_nonneg.2 (by positivity)
  unfold isKeyJustPressedOrRepeating keyRepeatSpec
  by_cases h0 : ⌊(0.050 : Rat) * tps⌋ = 0 <;> simp only [h0, if_true, if_false]
  · by_cases hd1 : d = 1
    · simp [hd1]
    · by_cases hge : d ≥ (30 : Int)
      · have hsub : (0 : Int) ≤ d - 30 := by omega
        have htm : Int.tmod (d - 30) 3 = (d - 30) % 3 :=
          Int.tmod_eq_emod hsub (by norm_num)
        simp [hd1, hge, htm]
      · simp [hd1, hge]
  · by_cases hd1 : d = 1
    · simp [hd1]
    · by_cases hge : d ≥ ⌊(0.500 : Rat) * tps⌋
      · have hsub : (0 : Int) ≤ d - ⌊(0.500 : Rat) * tps⌋ := by omega
        have htm : Int.tmod (d - ⌊(0.500 : Rat) * tps⌋) ⌊(0.050 : Rat) * tps⌋ =
            (d - ⌊(0.500 : Rat) * tps⌋) % ⌊(0.050 : Rat) * tps⌋ :=
          Int.tmod_eq_emod hsub hint
        simp [hd1, hge, htm]
      · simp [hd1, hge]

/-- C8 witness: at 60 ticks per second (delay 30, interval 3) a key held
33 ticks fires a repeat, as the formula predicts. -/
theorem c8_witness :
    isKeyJustPressedOrRepeating 60 33 = true ∧ keyRepeatSpec 60 33 := by
  have h := c8_key_repeat_timing 60 33 (by norm_num)
  constructor
  · rw [h]
    unfold keyRepeatSpec
    norm_num
  · rw [← h]
    unfold isKeyJustPressedOrRepeating
    norm_num

/-! Ebiten key codes (`ebiten.Key` enumeration values: `KeyA`..`KeyZ`
are 0..25, the named special keys are further distinct enumeration
values) and tcell key codes (`tcell.Key` values: `KeyBS` = 8, `KeyTAB`
= 9, `KeyCR` = 13, `KeyESC` = 27, `KeyCtrlA` = 1, `KeyRune` = 256, and
the special keys from 257 up). -/

def eKeyA : Nat := 0
def eKeyZ : Nat := 25
def eKeyArrowDown : Nat := 28
def eKeyArrowLeft : Nat := 29
def eKeyArrowRight : Nat := 30
def eKeyArrowUp : Nat := 31
def eKeyBackspace : Nat := 32
def eKeyDelete : Nat := 40
def eKeyEnd : Nat := 41
def eKeyEnter : Nat := 42
def eKeyEscape : Nat := 43
def eKeyF1 : Nat := 44
def eKeyF2 : Nat := 45
def eKeyF3 : Nat := 46
def eKeyF4 : Nat := 47
def eKeyF5 : Nat := 48
def eKeyF6 : Nat := 49
def eKeyF7 : Nat := 50
def eKeyF8 : Nat := 51
def eKeyF9 : Nat := 52
def eKeyF10 : Nat := 53
def eKeyF11 : Nat := 54
def eKeyF12 : Nat := 55
def eKeyHome : Nat := 56
def eKeyInsert : Nat := 57
def eKeyPageDown : Nat := 58
def eKeyPageUp : Nat := 59
def eKeyTab : Nat := 60

def tKeyCtrlA : Nat := 1
def tKeyBackspace : Nat := 8
def tKeyTab : Nat := 9
def tKeyEnter : Nat := 13
def tKeyEscape : Nat := 27
def tKeyRune : Nat := 256
def tKeyUp : Nat := 257
def tKeyDown : Nat := 258
def tKeyRight : Nat := 259
def tKeyLeft : Nat := 260
def tKeyPgUp : Nat := 266
def tKeyPgDn : Nat := 267
def tKeyHome : Nat := 268
def tKeyEnd : Nat := 269
def tKeyInsert : Nat := 270
def tKeyDelete : Nat := 271
def tKeyF1 : Nat := 279
def tKeyF2 : Nat := 280
def tKeyF3 : Nat := 281
def tKeyF4 : Nat := 282
def tKeyF5 : Nat := 283
def tKeyF6 : Nat := 284
def tKeyF7 : Nat := 285
def tKeyF8 : Nat := 286
def tKeyF9 : Nat := 287
def tKeyF10 : Nat := 288
def tKeyF11 : Nat := 289
def tKeyF12 : Nat := 290

/-- `ebiten_key_map` (`etcell.go` 137–164): the special-key translation
table from ebiten key codes to tcell key codes. -/
def ebiten_key_map : List (Nat × Nat) :=
  [ (eKeyArrowDown, tKeyDown), (eKeyArrowLeft, tKeyLeft),
    (eKeyArrowRight, tKeyRight), (eKeyArrowUp, tKeyUp),
    (eKeyBackspace, tKeyBackspace), (eKeyDelete, tKeyDelete),
    (eKeyEnd, tKeyEnd), (eKeyEnter, tKeyEnter), (eKeyEscape, tKeyEscape),
    (eKeyF1, tKeyF1), (eKeyF2, tKeyF2), (eKeyF3, tKeyF3), (eKeyF4, tKeyF4),
    (eKeyF5, tKeyF5), (eKeyF6, tKeyF6), (eKeyF7, tKeyF7), (eKeyF8, tKeyF8),
    (eKeyF9, tKeyF9), (eKeyF10, tKeyF10), (eKeyF11, tKeyF11),
    (eKeyF12, tKeyF12), (eKeyHome, tKeyHome), (eKeyInsert, tKeyInsert),
    (eKeyPageDown, tKeyPgDn), (eKeyPageUp, tKeyPgUp), (eKeyTab, tKeyTab) ]

/-- `ebiten_key_map[k]` as the Go map lookup. -/
def ebitenKeyMap (k : Nat) : Option Nat := ebiten_key_map.lookup k

/-! tcell wheel button bits: `WheelUp` = 256, `WheelDown` = 512,
`WheelLeft` = 1024, `WheelRight` = 2048; mouse buttons `ButtonPrimary`
= 1, `ButtonSecondary` = 2, `ButtonMiddle` = 4 (`ebiten_button_map`). -/

def wheelUp : Nat := 256
def wheelDown : Nat := 512
def wheelLeft : Nat := 1024
def wheelRight : Nat := 2048
def buttonPrimary : Nat := 1
def buttonSecondary : Nat := 2
def buttonMiddle : Nat := 4

/-- The per-frame inputs `ETCellGame.Update` reads from ebiten, one
tick's worth: the cursor point already taken through the inverse of the
configured affine transform (the float `GeoM` algebra is abstracted to
its resulting point), the pressed mouse buttons, the wheel offsets, the
pressed modifier keys (`modMask()`), this tick's input characters
(`AppendInputChars`), the pressed keys with their press durations
(`AppendPressedKeys` / `KeyPressDuration`), and the actual frame rate
(`ActualTPS`). -/
structure TickInput where
  mouse : Point
  leftPressed : Bool := false
  middlePressed : Bool := false
  rightPressed : Bool := false
  wheelX : Rat := 0
  wheelY : Rat := 0
  mods : ModMask := {}
  inputChars : List Nat := []
  pressedKeys : List (Nat × Int) := []
  tps : Rat := 60
deriving DecidableEq, Repr

/-- `ETCellGame.Update` (the concatenated `font/face.go` lines
486–609): the per-tick input translation.  Returns the new screen state
and the `err` result (the stored close error, if any).  The `posted`
flag is threaded exactly as in the source: it is set after every
`postEvent` call of the mouse, ctrl-key, input-char, special-key and
focus-lost paths — whether or not the event survived `postEvent`'s
enabled-flag filters — and the idle time event fires only when it is
still false at the end of the tick. -/
def update (s : ScreenState) (i : TickInput) : ScreenState × Option Nat :=
  match s.close_error with
  | some e => ({ s with close_error := none }, some e)
  | none =>
    if s.suspended then (s, none)
    else
      let mouse := i.mouse
      let inLayout := mouse.inRect s.layout
      -- Mouse-button section.
      let sp1 : ScreenState × Bool :=
        if inLayout then
          let s1 :=
            if !s.focused then
              { (postEvent s (.focus true)).1 with focused := true }
            else s
          let buttons : Nat :=
            (if i.leftPressed then buttonPrimary else 0) |||
            (if i.middlePressed then buttonMiddle else 0) |||
            (if i.rightPressed then buttonSecondary else 0)
          let mouseX := goDiv mouse.x s1.cell_size.x
          let mouseY := goDiv mouse.y s1.cell_size.y
          let buttons := buttons |||
            (if i.wheelX < 0 then wheelLeft else 0) |||
            (if i.wheelX > 0 then wheelRight else 0) |||
            (if i.wheelY < 0 then wheelDown else 0) |||
            (if i.wheelY > 0 then wheelUp else 0)
          let s2 := (postEvent s1 (.mouse mouseX mouseY buttons i.mods)).1
          (s2, true)
        else (s, false)
      -- Key section (same layout-membership test as the mouse section).
      let sp2 : ScreenState × Bool :=
        if inLayout then
          let s2 :=
            if !sp1.1.focused then
              { (postEvent sp1.1 (.focus true)).1 with focused := true }
            else sp1.1
          let mods := i.mods
          let spk : ScreenState × Bool :=
            if mods.ctrl then
              i.pressedKeys.foldl (fun acc kd =>
                if isKeyJustPressedOrRepeating i.tps kd.2 = false then acc
                else if eKeyA ≤ kd.1 ∧ kd.1 ≤ eKeyZ then
                  ((postEvent acc.1 (.key (tKeyCtrlA + (kd.1 - eKeyA)) 0
                      { mods with ctrl := false })).1, true)
                else acc) (s2, sp1.2)
            else
              i.inputChars.foldl (fun acc ch =>
                ((postEvent acc.1 (.key tKeyRune ch
                    { mods with shift := false })).1, true)) (s2, sp1.2)
          let spk := i.pressedKeys.foldl (fun acc kd =>
            if isKeyJustPressedOrRepeating i.tps kd.2 = false then acc
            else
              match ebitenKeyMap kd.1 with
              | some tk => ((postEvent acc.1 (.key tk 0 mods)).1, true)
              | none => acc) spk
          spk
        else sp1
      -- Focus-lost check.
      let sp3 : ScreenState × Bool :=
        if !inLayout then
          if sp2.1.focused then
            ({ (postEvent sp2.1 (.focus false)).1 with focused := false }, true)
          else sp2
        else sp2
      -- Idle time event when nothing was fired this tick.
      if sp3.2 = false then ((postEvent sp3.1 .time).1, none)
      else (sp3.1, none)

/-- A non-suspended screen with an open empty queue, a 10×10-pixel
layout, 2×3 cells, and no reporting flags enabled — the state of a
freshly initialized, never-configured screen. -/
def c9State : ScreenState :=
  { event_channel := some [], layout := ⟨0, 0, 10, 10⟩, cell_size := ⟨2, 3⟩ }

/-- A tick with the cursor inside the layout and otherwise no input at
all. -/
def c9Input : TickInput := { mouse := ⟨1, 1⟩ }

/-- C9 counterexample.  The claim says a non-suspended tick on which no
event was emitted (after the enabled-flag filters) emits an idle time
event, so every such tick enqueues at least one event.  On `c9State`
(focus reporting off, no mouse flags) with the cursor inside the layout
and no other input, the tick's focus-gain and mouse posts are both
dropped by the filters, yet the `posted` flag is set, so no idle event
fires either: the tick enqueues nothing at all. -/
theorem c9_counterexample :
    c9State.suspended = false ∧
    c9State.event_channel = some [] ∧
    (update c9State c9Input).1.event_channel = some [] := by
  refine ⟨rfl, rfl, ?_⟩
  decide

/-- C9 amended.  The idle time event is governed by post *attempts*,
not by delivered events: on a non-suspended, non-closing tick with an
open non-full queue, (a) if the cursor is outside the layout and the
screen was not focused — so no post is attempted — exactly the idle
time event is enqueued; but (b) if the cursor is inside the layout
while focus reporting is disabled, no mouse flags are set, and there is
no key or character input, every attempted post is dropped by the
filters, the attempts still count as "posted", and the tick enqueues
nothing. -/
theorem c9_idle_event_tracks_attempted_posts
    (s : ScreenState) (i : TickInput) (q : List Event)
    (hsusp : s.suspended = false) (hclose : s.close_error = none)
    (hch : s.event_channel = some q) (hlen : q.length < 128) :
    (i.mouse.inRect s.layout = false → s.focused = false →
      (update s i).1.event_channel = some (q ++ [Event.time])) ∧
    (i.mouse.inRect s.layout = true → s.enable_focus = false →
      s.mouse_flags = 0 → i.pressedKeys = [] → i.inputChars = [] →
      (update s i).1.event_channel = some q) := by
  constructor
  · intro hout hfoc
    simp [update, hclose, hsusp, hout, hfoc, postEvent, hch,
      sendEvent, eventQueueCapacity, hlen]
  · intro hin hfocflag hmouse hkeys hchars
    by_cases hfoc : s.focused = true
    · by_cases hctrl : i.mods.ctrl = true <;>
        simp [update, hclose, hsusp, hin, hfoc, hctrl, hkeys, hchars,
          postEvent, hch, hfocflag, hmouse, sendEvent]
    · replace hfoc : s.focused = false := by
        cases hf : s.focused
        · rfl
        · exact absurd hf hfoc
      by_cases hctrl : i.mods.ctrl = true <;>
        simp [update, hclose, hsusp, hin, hfoc, hctrl, hkeys, hchars,
          postEvent, hch, hfocflag, hmouse, sendEvent]

/-- A tick with the cursor outside the layout and no other input. -/
def c9InputOutside : TickInput := { mouse := ⟨-5, -5⟩ }

/-- C9 witness: the amended theorem applied to the concrete fresh
screen, once with the cursor outside the layout (idle time event
enqueued) and once inside with everything filtered (nothing
enqueued). -/
theorem c9_witness :
    (update c9State c9InputOutside).1.event_channel = some [Event.time] ∧
    (update c9State c9Input).1.event_channel = some [] := by
  have hout := c9_idle_event_tracks_attempted_posts c9State c9InputOutside []
    rfl rfl rfl (by decide)
  have hin := c9_idle_event_tracks_attempted_posts c9State c9Input []
    rfl rfl rfl (by decide)
  exact ⟨hout.1 (by decide) rfl, hin.2 (by decide) rfl rfl rfl rfl⟩

end TcellEbiten
